import Mathlib

/-!
Verification development for the postgres_to_polars library.

The definitions below are a shallow embedding, translated function by
function from the Rust sources:
  src/utils/mod.rs          (md5_hash, statement_name)
  src/utils/text_array.rs   (parse_text_array)
  src/utils/error.rs        (PgToPlError)
  src/models/column_result.rs (ColumnResult, ColumnStorage, column_from_field,
                               push_column_value)
  src/models/client.rs      (Client::connect and Client::query read-dispatch
                             loops, health flag)
  src/models/pool.rs        (Pool::new, Pool::acquire, ClientRef drop)

Machine integers are modelled as Nat / Int with explicit reductions
modulo powers of two where the machine width matters.  Bytes (u8) are
modelled as Nat, reduced modulo 256 at every decode site.  Panics are
modelled by returning none from an Option-valued function.  f64 values
are kept as their 64-bit IEEE-754 bit pattern (a Nat below 2 to the 64),
which is exactly what f64::from_be_bytes produces up to bit
reinterpretation.
-/

/-- Big-endian interpretation of a byte list, as in i32::from_be_bytes /
i64::from_be_bytes before sign interpretation.  Each entry is reduced
modulo 256 because the source bytes are u8. -/
def beNat (l : List Nat) : Nat :=
  l.foldl (fun acc b => acc * 256 + b % 256) 0

/-- Two's-complement reading of 4 big-endian bytes, as i32::from_be_bytes. -/
def i32FromBe (l : List Nat) : Int :=
  if beNat l % 2 ^ 32 < 2 ^ 31 then ((beNat l % 2 ^ 32 : Nat) : Int)
  else ((beNat l % 2 ^ 32 : Nat) : Int) - 2 ^ 32

/-- Two's-complement reading of 8 big-endian bytes, as i64::from_be_bytes. -/
def i64FromBe (l : List Nat) : Int :=
  if beNat l % 2 ^ 64 < 2 ^ 63 then ((beNat l % 2 ^ 64 : Nat) : Int)
  else ((beNat l % 2 ^ 64 : Nat) : Int) - 2 ^ 64

/-- Wrapping i32 arithmetic: reduce an unbounded Int back into i32 range. -/
def wrap32 (v : Int) : Int := (v + 2 ^ 31) % 2 ^ 32 - 2 ^ 31

/-- Wrapping i64 arithmetic: reduce an unbounded Int back into i64 range. -/
def wrap64 (v : Int) : Int := (v + 2 ^ 63) % 2 ^ 64 - 2 ^ 63

/-- The Rust cast `as usize` applied to an i32 value (sign extension then
reinterpretation as a 64-bit unsigned integer). -/
def usizeOfI32 (v : Int) : Nat := (v % 2 ^ 64).toNat

/-- UTF-8 encoding of one Unicode code point, byte list output. -/
def utf8EncodeCharNat (c : Nat) : List Nat :=
  if c < 128 then [c]
  else if c < 2048 then [192 + c / 64, 128 + c % 64]
  else if c < 65536 then [224 + c / 4096, 128 + c / 64 % 64, 128 + c % 64]
  else [240 + c / 262144, 128 + c / 4096 % 64, 128 + c / 64 % 64, 128 + c % 64]

/-- The UTF-8 bytes of a String, as Rust str::as_bytes. -/
def strBytes (s : String) : List Nat :=
  s.data.flatMap (fun c => utf8EncodeCharNat c.toNat)

/-- Is this byte a UTF-8 continuation byte (0x80 to 0xBF)? -/
def utf8Cont (b : Nat) : Bool := 128 ≤ b && b < 192

/-- Strict UTF-8 decoding to a list of code points, as validated by Rust
str::from_utf8: rejects overlong encodings, surrogates, code points above
0x10FFFF, and truncated sequences.  Returns none on invalid input. -/
def utf8Decode : List Nat → Option (List Nat)
  | [] => some []
  | b :: rest =>
    if b < 128 then (utf8Decode rest).map (fun l => b :: l)
    else if b < 194 then none
    else if b < 224 then
      match rest with
      | c1 :: rest2 =>
        if utf8Cont c1 then
          (utf8Decode rest2).map (fun l => ((b - 192) * 64 + (c1 - 128)) :: l)
        else none
      | _ => none
    else if b < 240 then
      match rest with
      | c1 :: c2 :: rest2 =>
        let cp := (b - 224) * 4096 + (c1 - 128) * 64 + (c2 - 128)
        if utf8Cont c1 && utf8Cont c2 && decide (2048 ≤ cp) &&
            !(decide (55296 ≤ cp) && decide (cp < 57344)) then
          (utf8Decode rest2).map (fun l => cp :: l)
        else none
      | _ => none
    else if b < 245 then
      match rest with
      | c1 :: c2 :: c3 :: rest2 =>
        let cp := (b - 240) * 262144 + (c1 - 128) * 4096 + (c2 - 128) * 64 + (c3 - 128)
        if utf8Cont c1 && utf8Cont c2 && utf8Cont c3 &&
            decide (65536 ≤ cp) && decide (cp ≤ 1114111) then
          (utf8Decode rest2).map (fun l => cp :: l)
        else none
      | _ => none
    else none

/-- Lowercase hexadecimal digit character for a value below 16. -/
def hexDigitChar (n : Nat) : Char :=
  if n < 10 then Char.ofNat (48 + n) else Char.ofNat (87 + n)

/-- Lowercase hex characters of a byte list, two characters per byte, as
the Rust formatter {:02x} applied to each u8 of a digest. -/
def bytesToHexChars : List Nat → List Char
  | [] => []
  | b :: rest => hexDigitChar (b / 16 % 16) :: hexDigitChar (b % 16) :: bytesToHexChars rest

/-- Lowercase hex string of a byte list, as format!("{:x}", digest) on an
md5::Digest. -/
def bytesToHex (l : List Nat) : String := String.mk (bytesToHexChars l)

/-! ### MD5 (RFC 1321), needed by src/utils/mod.rs (the md5 crate) -/

/-- The 64 MD5 sine-derived constants. -/
def md5K : List Nat :=
  [0xd76aa478, 0xe8c7b756, 0x242070db, 0xc1bdceee,
   0xf57c0faf, 0x4787c62a, 0xa8304613, 0xfd469501,
   0x698098d8, 0x8b44f7af, 0xffff5bb1, 0x895cd7be,
   0x6b901122, 0xfd987193, 0xa679438e, 0x49b40821,
   0xf61e2562, 0xc040b340, 0x265e5a51, 0xe9b6c7aa,
   0xd62f105d, 0x02441453, 0xd8a1e681, 0xe7d3fbc8,
   0x21e1cde6, 0xc33707d6, 0xf4d50d87, 0x455a14ed,
   0xa9e3e905, 0xfcefa3f8, 0x676f02d9, 0x8d2a4c8a,
   0xfffa3942, 0x8771f681, 0x6d9d6122, 0xfde5380c,
   0xa4beea44, 0x4bdecfa9, 0xf6bb4b60, 0xbebfbc70,
   0x289b7ec6, 0xeaa127fa, 0xd4ef3085, 0x04881d05,
   0xd9d4d039, 0xe6db99e5, 0x1fa27cf8, 0xc4ac5665,
   0xf4292244, 0x432aff97, 0xab9423a7, 0xfc93a039,
   0x655b59c3, 0x8f0ccc92, 0xffeff47d, 0x85845dd1,
   0x6fa87e4f, 0xfe2ce6e0, 0xa3014314, 0x4e0811a1,
   0xf7537e82, 0xbd3af235, 0x2ad7d2bb, 0xeb86d391]

/-- The 64 MD5 per-round left-rotation amounts. -/
def md5S : List Nat :=
  [7, 12, 17, 22, 7, 12, 17, 22, 7, 12, 17, 22, 7, 12, 17, 22,
   5, 9, 14, 20, 5, 9, 14, 20, 5, 9, 14, 20, 5, 9, 14, 20,
   4, 11, 16, 23, 4, 11, 16, 23, 4, 11, 16, 23, 4, 11, 16, 23,
   6, 10, 15, 21, 6, 10, 15, 21, 6, 10, 15, 21, 6, 10, 15, 21]

/-- 32-bit left rotation. -/
def rotl32 (x s : Nat) : Nat := ((x <<< s) ||| (x >>> (32 - s))) % 2 ^ 32

/-- Little-endian 32-bit word from (up to) 4 bytes. -/
def le32 (l : List Nat) : Nat :=
  match l with
  | [b0, b1, b2, b3] => b0 % 256 + b1 % 256 * 256 + b2 % 256 * 65536 + b3 % 256 * 16777216
  | _ => 0

/-- The 16 message words of one 64-byte MD5 block. -/
def md5Words (block : List Nat) : List Nat :=
  (List.range 16).map (fun i => le32 ((block.drop (4 * i)).take 4))

/-- The MD5 round function for step i. -/
def md5F (i b c d : Nat) : Nat :=
  if i < 16 then (b &&& c) ||| ((4294967295 ^^^ b) &&& d)
  else if i < 32 then (d &&& b) ||| ((4294967295 ^^^ d) &&& c)
  else if i < 48 then b ^^^ c ^^^ d
  else c ^^^ (b ||| (4294967295 ^^^ d))

/-- The MD5 message-word index for step i. -/
def md5G (i : Nat) : Nat :=
  if i < 16 then i
  else if i < 32 then (5 * i + 1) % 16
  else if i < 48 then (3 * i + 5) % 16
  else (7 * i) % 16

/-- One of the 64 MD5 steps, acting on the (a, b, c, d) state. -/
def md5Step (ws : List Nat) (st : Nat × Nat × Nat × Nat) (i : Nat) : Nat × Nat × Nat × Nat :=
  let a := st.1
  let b := st.2.1
  let c := st.2.2.1
  let d := st.2.2.2
  let f := (md5F i b c d + a + md5K.getD i 0 + ws.getD (md5G i) 0) % 2 ^ 32
  (d, (b + rotl32 f (md5S.getD i 0)) % 2 ^ 32, b, c)

/-- Compression of one 64-byte block into the running MD5 state. -/
def md5Block (block : List Nat) (st : Nat × Nat × Nat × Nat) : Nat × Nat × Nat × Nat :=
  let ws := md5Words block
  let r := (List.range 64).foldl (md5Step ws) st
  ((st.1 + r.1) % 2 ^ 32, (st.2.1 + r.2.1) % 2 ^ 32,
   (st.2.2.1 + r.2.2.1) % 2 ^ 32, (st.2.2.2 + r.2.2.2) % 2 ^ 32)

/-- MD5 padding: 0x80, zeros to 56 mod 64, then the bit length as a
little-endian 64-bit quantity. -/
def md5Pad (msg : List Nat) : List Nat :=
  let len := msg.length
  let padZeros := (55 + 64 - len % 64) % 64
  let bitLen := 8 * len % 2 ^ 64
  msg ++ [128] ++ List.replicate padZeros 0 ++
    (List.range 8).map (fun i => bitLen / 2 ^ (8 * i) % 256)

/-- Fold the MD5 compression over the given number of 64-byte blocks. -/
def md5Blocks : Nat → List Nat → Nat × Nat × Nat × Nat → Nat × Nat × Nat × Nat
  | 0, _, st => st
  | n + 1, bytes, st => md5Blocks n (bytes.drop 64) (md5Block (bytes.take 64) st)

/-- Little-endian byte serialization of a 32-bit word. -/
def le4Bytes (w : Nat) : List Nat := [w % 256, w / 256 % 256, w / 65536 % 256, w / 16777216 % 256]

/-- The 16-byte MD5 digest of a byte list. -/
def md5Bytes (msg : List Nat) : List Nat :=
  let padded := md5Pad msg
  let st := md5Blocks (padded.length / 64) padded (0x67452301, 0xefcdab89, 0x98badcfe, 0x10325476)
  le4Bytes st.1 ++ le4Bytes st.2.1 ++ le4Bytes st.2.2.1 ++ le4Bytes st.2.2.2

/-- Sanity check of the MD5 embedding against the RFC 1321 test vector for
the empty message. -/
theorem md5_empty_vector :
    md5Bytes [] =
      [0xd4, 0x1d, 0x8c, 0xd9, 0x8f, 0x00, 0xb2, 0x04,
       0xe9, 0x80, 0x09, 0x98, 0xec, 0xf8, 0x42, 0x7e] := by decide

/-- Sanity check of the MD5 embedding against the RFC 1321 test vector for
the three-byte message abc. -/
theorem md5_abc_vector :
    md5Bytes (strBytes "abc") =
      [0x90, 0x01, 0x50, 0x98, 0x3c, 0xd2, 0x4f, 0xb0,
       0xd6, 0x96, 0x3f, 0x7d, 0x28, 0xe1, 0x7f, 0x72] := by decide

/-! ### src/utils/mod.rs : md5_hash and statement_name -/

/-- Model of md5::Context::consume: the context accumulates bytes. -/
def md5ContextConsume (ctx : List Nat) (bs : List Nat) : List Nat := ctx ++ bs

/-- Model of md5::Context::finalize: digest of the accumulated bytes. -/
def md5ContextFinalize (ctx : List Nat) : List Nat := md5Bytes ctx

/-- Translation of md5_hash from src/utils/mod.rs: inner digest of
password concatenated with user (format!, in that order), hex of it, then
an incremental context fed the hex bytes and the salt, finalized and
prefixed with md5. -/
def md5_hash (user password : String) (salt : List Nat) : String :=
  let inner := md5Bytes (strBytes (password ++ user))
  let innerHex := bytesToHex inner
  let outer := md5ContextConsume (md5ContextConsume [] (strBytes innerHex)) salt
  let finalHash := md5ContextFinalize outer
  "md5" ++ bytesToHex finalHash

/-- Translation of statement_name from src/utils/mod.rs:
format!("stmt_{:x}", md5::compute(query.as_bytes())). -/
def statement_name (query : String) : String :=
  "stmt_" ++ bytesToHex (md5Bytes (strBytes query))

/-! ### src/utils/error.rs : the error taxonomy -/

/-- Translation of PgToPlError from src/utils/error.rs.  The Io variant
carries a std::io::Error in the source; the payload is irrelevant to every
claim, so it is dropped here. -/
inductive PgToPlError where
  | ioError
  | onlyOneDimensionArraySupported
  | notEnoughBytes
  | bindError
  | tooFewField (got : Nat) (expected : Nat)
  | tooManyField (expected : Nat)
  | pingFailed (msg : String)
  | connectionClosed
  | poolError (msg : String)
  | paramTypeMismatch
  | queryError (msg : String)
deriving DecidableEq

/-! ### src/utils/text_array.rs : parse_text_array -/

/-- Model of byteorder read_i32::<BigEndian> on a byte slice: consumes 4
bytes, or fails with an UnexpectedEof std::io::Error (PgToPlError Io)
when fewer than 4 bytes remain. -/
def readI32 : List Nat → Except PgToPlError (Int × List Nat)
  | b0 :: b1 :: b2 :: b3 :: rest => .ok (i32FromBe [b0, b1, b2, b3], rest)
  | _ => .error .ioError

/-- The element loop of parse_text_array (src/utils/text_array.rs lines
23 to 38): reads dim_len items, each an i32 length then that many UTF-8
bytes; length -1 is a null element; a length exceeding the remaining
bytes is NotEnoughBytes; invalid UTF-8 is an InvalidData io error.
Elements are modelled as code-point lists. -/
def parseItems : Nat → List Nat → Except PgToPlError (List (Option (List Nat)))
  | 0, _ => .ok []
  | n + 1, bytes =>
    match readI32 bytes with
    | .error e => .error e
    | .ok (itemLen, rest) =>
      if itemLen = -1 then
        match parseItems n rest with
        | .error e => .error e
        | .ok vs => .ok (none :: vs)
      else
        let len := usizeOfI32 itemLen
        if rest.length < len then .error .notEnoughBytes
        else
          match utf8Decode (rest.take len) with
          | none => .error .ioError
          | some cps =>
            match parseItems n (rest.drop len) with
            | .error e => .error e
            | .ok vs => .ok (some cps :: vs)

/-- Translation of parse_text_array from src/utils/text_array.rs: ndim,
has_null, element oid, dim_len, lower bound (all big-endian i32), then
dim_len elements.  ndim 0 yields the empty list; any ndim other than 0
or 1 fails with OnlyOneDimensionArraySupported. -/
def parse_text_array (bytes : List Nat) : Except PgToPlError (List (Option (List Nat))) :=
  match readI32 bytes with
  | .error e => .error e
  | .ok (ndim, rest) =>
    if ndim = 0 then .ok []
    else if ndim ≠ 1 then .error .onlyOneDimensionArraySupported
    else
      match readI32 rest with
      | .error e => .error e
      | .ok (_hasNull, r2) =>
        match readI32 r2 with
        | .error e => .error e
        | .ok (_elementOid, r3) =>
          match readI32 r3 with
          | .error e => .error e
          | .ok (dimLen, r4) =>
            match readI32 r4 with
            | .error e => .error e
            | .ok (_lowerBound, r5) => parseItems (usizeOfI32 dimLen) r5

/-! ### src/models/column_result.rs : column builders -/

/-- Translation of ColumnResult: a named vector of optional cells.  The
capacity management of the source (with_capacity, extend_vec) does not
affect the stored data and is omitted. -/
structure ColumnResult (α : Type) where
  name : String
  data : List (Option α)
deriving DecidableEq

/-- ColumnResult::push -/
def ColumnResult.push {α : Type} (c : ColumnResult α) (v : α) : ColumnResult α :=
  { c with data := c.data ++ [some v] }

/-- ColumnResult::push_null -/
def ColumnResult.pushNull {α : Type} (c : ColumnResult α) : ColumnResult α :=
  { c with data := c.data ++ [none] }

/-- Translation of ColumnStorage from src/models/column_result.rs.
Strings are modelled as code-point lists, f64 values as their 64-bit bit
pattern. -/
inductive ColumnStorage where
  | Ints (col : ColumnResult Int)
  | Texts (col : ColumnResult (List Nat))
  | Bools (col : ColumnResult Bool)
  | Dates (col : ColumnResult Int)
  | TextArray (col : ColumnResult (List (Option (List Nat))))
  | Timestamps (col : ColumnResult Int)
  | Doubles (col : ColumnResult Nat)
  | TimestampsWtz (col : ColumnResult Int)
  | Times (col : ColumnResult Int)
  | Bytes (col : ColumnResult (List Nat))
deriving DecidableEq

/-- A RowDescription field descriptor: name and PostgreSQL type oid (the
format code is not consulted by column_from_field). -/
structure FieldDesc where
  name : String
  typeOid : Nat
deriving DecidableEq

/-- Translation of column_from_field: dispatch on the type oid, with the
raw-bytes fallback for unknown oids. -/
def column_from_field (f : FieldDesc) : ColumnStorage :=
  match f.typeOid with
  | 23 => .Ints ⟨f.name, []⟩
  | 25 => .Texts ⟨f.name, []⟩
  | 1043 => .Texts ⟨f.name, []⟩
  | 16 => .Bools ⟨f.name, []⟩
  | 1082 => .Dates ⟨f.name, []⟩
  | 1009 => .TextArray ⟨f.name, []⟩
  | 1184 => .Timestamps ⟨f.name, []⟩
  | 701 => .Doubles ⟨f.name, []⟩
  | 1114 => .TimestampsWtz ⟨f.name, []⟩
  | 1083 => .Times ⟨f.name, []⟩
  | _ => .Bytes ⟨f.name, []⟩

/-- Translation of push_column_value.  The input is none for a SQL NULL
(a -1 length in the DataRow) and some bytes otherwise.  The result is
none exactly when the source panics: on invalid UTF-8 in a Texts cell
(str::from_utf8 unwrap) and on a parse_text_array error in a TextArray
cell (unwrap).  The DATE shift adds 10957 days and the TIMESTAMP and
TIMESTAMPTZ shifts add 946684800000000 microseconds, with wrapping
machine arithmetic. -/
def push_column_value (column : ColumnStorage) (value : Option (List Nat)) :
    Option ColumnStorage :=
  match column with
  | .Ints col =>
    match value with
    | some bytes =>
      if bytes.length = 4 then some (.Ints (col.push (i32FromBe bytes)))
      else some (.Ints col.pushNull)
    | none => some (.Ints col.pushNull)
  | .Texts col =>
    match value with
    | some bytes =>
      match utf8Decode bytes with
      | some cps => some (.Texts (col.push cps))
      | none => none
    | none => some (.Texts col.pushNull)
  | .Bools col =>
    match value with
    | some [b] => some (.Bools (col.push (decide (b % 256 ≠ 0))))
    | some _ => some (.Bools col.pushNull)
    | none => some (.Bools col.pushNull)
  | .Bytes col =>
    match value with
    | some bytes => some (.Bytes (col.push bytes))
    | none => some (.Bytes col.pushNull)
  | .Dates col =>
    match value with
    | some bytes =>
      if bytes.length = 4 then some (.Dates (col.push (wrap32 (i32FromBe bytes + 10957))))
      else some (.Dates col.pushNull)
    | none => some (.Dates col.pushNull)
  | .TextArray col =>
    match value with
    | some bytes =>
      match parse_text_array bytes with
      | .ok v => some (.TextArray (col.push v))
      | .error _ => none
    | none => some (.TextArray col.pushNull)
  | .Timestamps col =>
    match value with
    | some bytes =>
      if bytes.length = 8 then
        some (.Timestamps (col.push (wrap64 (i64FromBe bytes + 946684800000000))))
      else some (.Timestamps col.pushNull)
    | none => some (.Timestamps col.pushNull)
  | .Doubles col =>
    match value with
    | some bytes =>
      if bytes.length = 8 then some (.Doubles (col.push (beNat bytes % 2 ^ 64)))
      else some (.Doubles col.pushNull)
    | none => some (.Doubles col.pushNull)
  | .TimestampsWtz col =>
    match value with
    | some bytes =>
      if bytes.length = 8 then
        some (.TimestampsWtz (col.push (wrap64 (i64FromBe bytes + 946684800000000))))
      else some (.TimestampsWtz col.pushNull)
    | none => some (.TimestampsWtz col.pushNull)
  | .Times col =>
    match value with
    | some bytes =>
      if bytes.length = 8 then some (.Times (col.push (i64FromBe bytes)))
      else some (.Times col.pushNull)
    | none => some (.Times col.pushNull)

/-! ### src/models/client.rs : the query and connect read-dispatch loops

The TCP stream is modelled as a script of read events.  Each successful
read either returns zero bytes (the peer closed the connection) or a
positive number of bytes from which the postgres_protocol framing
extracts a list of complete backend messages (possibly empty when only a
partial frame arrived).  A read may also fail with a std::io::Error.
-/

/-- One backend message as dispatched by the Client::query loop
(src/models/client.rs lines 230 to 287).  A DataRow carries one entry
per transmitted field: none models a SQL NULL range, some bytes a value
range.  All tags the loop ignores collapse into otherMsg. -/
inductive QMsg where
  | rowDescription (fields : List FieldDesc)
  | dataRow (row : List (Option (List Nat)))
  | noData
  | readyForQuery
  | errorResponse (msg : String)
  | otherMsg
deriving DecidableEq

/-- One read over the socket: an I/O failure, a zero-byte read, or a
chunk of bytes holding the given complete backend messages. -/
inductive REv (α : Type) where
  | ioErr
  | eof
  | chunk (msgs : List α)
deriving DecidableEq

/-- Outcome of pushing one DataRow into the column builders
(src/models/client.rs lines 241 to 261): a panic inside
push_column_value, a row-shape error, or the updated builders. -/
inductive RowStep where
  | panicked
  | fail (e : PgToPlError)
  | ok (cols : List ColumnStorage)
deriving DecidableEq

/-- The DataRow loop: walk the builders in order against the transmitted
fields.  Running out of fields at builder index i is TooFewField(i,
total); fields left over after the last builder is TooManyField(total). -/
def pushRow (cols : List ColumnStorage) (row : List (Option (List Nat)))
    (idx : Nat) (total : Nat) : RowStep :=
  match cols, row with
  | [], [] => .ok []
  | [], _ :: _ => .fail (.tooManyField total)
  | _ :: _, [] => .fail (.tooFewField idx total)
  | c :: cs, f :: fs =>
    match push_column_value c f with
    | none => .panicked
    | some c2 =>
      match pushRow cs fs (idx + 1) total with
      | .panicked => .panicked
      | .fail e => .fail e
      | .ok rest => .ok (c2 :: rest)

/-- How the inner message loop of Client::query left the function. -/
inductive Term where
  | rfq
  | noData
deriving DecidableEq

/-- Result of dispatching the messages of one chunk: either the chunk is
exhausted and the outer loop continues with updated builders and pending
error, or the function returns (with the messages that were still
unprocessed in the read buffer). -/
inductive MsgStep where
  | cont (cols : List ColumnStorage) (errOpt : Option String)
  | retPanic (left : List QMsg)
  | retErr (e : PgToPlError) (healthy : Bool) (left : List QMsg)
  | retOk (cols : List ColumnStorage) (t : Term) (left : List QMsg)
deriving DecidableEq

/-- Translation of the inner while-parse loop of Client::query.  h0 is
the health flag value on entry; the flag is written only by the
ConnectionClosed return (false), the ReadyForQuery-with-pending-error
return (false), and the ReadyForQuery / NoData terminations (true); the
row-shape error returns leave it at h0.  Only the first ErrorResponse is
buffered. -/
def processMsgs (h0 : Bool) : List QMsg → List ColumnStorage → Option String → MsgStep
  | [], cols, e => .cont cols e
  | m :: rest, cols, e =>
    match m with
    | .rowDescription fs => processMsgs h0 rest (fs.map column_from_field) e
    | .dataRow row =>
      match pushRow cols row 0 cols.length with
      | .panicked => .retPanic rest
      | .fail err => .retErr err h0 rest
      | .ok cols2 => processMsgs h0 rest cols2 e
    | .noData => .retOk cols .noData rest
    | .readyForQuery =>
      match e with
      | some msg => .retErr (.queryError msg) false rest
      | none => .retOk cols .rfq rest
    | .errorResponse msg =>
      processMsgs h0 rest cols (match e with | none => some msg | some m0 => some m0)
    | .otherMsg => processMsgs h0 rest cols e

/-- Decidable equality for Except values, used by the decision procedure
on outcome equalities. -/
instance {ε α : Type} [DecidableEq ε] [DecidableEq α] : DecidableEq (Except ε α) := fun x y =>
  match x, y with
  | .ok a, .ok b =>
    if h : a = b then isTrue (by rw [h]) else isFalse (by intro he; cases he; exact h rfl)
  | .error a, .error b =>
    if h : a = b then isTrue (by rw [h]) else isFalse (by intro he; cases he; exact h rfl)
  | .ok _, .error _ => isFalse (by intro h; cases h)
  | .error _, .ok _ => isFalse (by intro h; cases h)

/-- Outcome of a whole Client::query read-dispatch run: the script ran
out while the loop still wanted bytes (the task would stay suspended on
the socket), a panic, or a return carrying the result, the health flag
at return, the termination kind (none for error returns), and the
messages left unprocessed in the read buffer. -/
inductive QOutcome where
  | blocked
  | panicked
  | result (r : Except PgToPlError (List ColumnStorage)) (healthy : Bool)
      (t : Option Term) (left : List QMsg)
deriving DecidableEq

/-- Translation of the outer read loop of Client::query
(src/models/client.rs lines 213 to 302): a failed read propagates the
io error with the health flag untouched; a zero-byte read marks the
session unhealthy and returns ConnectionClosed; otherwise the chunk is
dispatched.  On ReadyForQuery with no pending error and on NoData the
flag is set healthy and the dataframe is returned. -/
def queryRun (h0 : Bool) : List (REv QMsg) → List ColumnStorage → Option String → QOutcome
  | [], _, _ => .blocked
  | .ioErr :: _, _, _ => .result (.error .ioError) h0 none []
  | .eof :: _, _, _ => .result (.error .connectionClosed) false none []
  | .chunk msgs :: evs, cols, e =>
    match processMsgs h0 msgs cols e with
    | .cont cols2 e2 => queryRun h0 evs cols2 e2
    | .retPanic _ => .panicked
    | .retErr err h left => .result (.error err) h none left
    | .retOk cols2 t left => .result (.ok cols2) true (some t) left

/-- Client::has_broken (src/models/client.rs lines 305 to 307): the
negation of the atomic health flag. -/
def has_broken (healthy : Bool) : Bool := !healthy

/-- One backend message as dispatched by the Client::connect handshake
loop (src/models/client.rs lines 92 to 119). -/
inductive CMsg where
  | readyForQuery
  | errorResponse (msg : String)
  | authCleartext
  | authMd5 (salt : List Nat)
  | otherMsg
deriving DecidableEq

/-- Does a chunk contain a ReadyForQuery?  The handshake loop stops at
the first one; every other message only prints or writes and leaves the
loop state unchanged. -/
def hasRFQ (msgs : List CMsg) : Bool :=
  msgs.any (fun m => match m with | .readyForQuery => true | _ => false)

/-- Outcome of a Client::connect run. -/
inductive COutcome where
  | blocked
  | result (r : Except PgToPlError Unit) (healthy : Bool)
deriving DecidableEq

/-- Translation of the Client::connect read loop (src/models/client.rs
lines 55 to 128): a failed read propagates the io error leaving the
flag at its entry value h0 (false for a fresh session); a zero-byte
read breaks the loop; a chunk containing ReadyForQuery breaks the loop;
after the loop mark_healthy runs unconditionally and Ok is returned.
An ErrorResponse during the handshake is only printed. -/
def connectRun (h0 : Bool) : List (REv CMsg) → COutcome
  | [] => .blocked
  | .ioErr :: _ => .result (.error .ioError) h0
  | .eof :: _ => .result (.ok ()) true
  | .chunk msgs :: evs =>
    if hasRFQ msgs then .result (.ok ()) true else connectRun h0 evs

/-- Erase every ErrorResponse from a connect script, leaving all other
reads in place. -/
def eraseErrors (evs : List (REv CMsg)) : List (REv CMsg) :=
  evs.map (fun ev =>
    match ev with
    | .chunk msgs => .chunk (msgs.filter (fun m =>
        match m with | .errorResponse _ => false | _ => true))
    | e => e)

/-! ### src/models/pool.rs : pool, acquisition, handle drop -/

/-- Abstract session state for the pool claims: the atomic health flag
and whether the session ever completed the connect() handshake.  A
session fresh out of Client::new has completed only the TCP connect, not
the handshake, and its health flag is false
(src/models/client.rs lines 40 to 49). -/
structure ClientM where
  healthy : Bool
  handshakeDone : Bool
deriving DecidableEq

/-- Client::new: TCP connect only, health flag false, no handshake. -/
def clientNew : ClientM := ⟨false, false⟩

/-- The state of a session after a connect() call that returned: the
flag is set healthy and the startup handshake has been driven. -/
def clientConnected : ClientM := ⟨true, true⟩

/-- Client::replace (src/models/client.rs lines 51 to 53):
Client::new(options) with the same options; connect() is not called. -/
def clientReplace (_c : ClientM) : ClientM := clientNew

/-- The session pushed back onto the available list by the ClientRef
drop handler (src/models/pool.rs lines 26 to 42): the dropped session
itself when its health flag is set, the replacement otherwise. -/
def clientRefDropPush (c : ClientM) : ClientM :=
  if c.healthy then c else clientReplace c

/-- Translation of PoolOptions (src/models/pool_options.rs): the client
options do not matter to the pool claims and are omitted. -/
structure PoolOptionsM where
  maxConnections : Nat
  acquireTimeout : Nat
deriving DecidableEq

/-- Pool state: the available list (head = top of the Vec used as a
stack: push appends where pop removes) and the number of free semaphore
permits. -/
structure PoolM where
  available : List ClientM
  permits : Nat
deriving DecidableEq

/-- Translation of Pool::new (src/models/pool.rs lines 45 to 70):
max_connections sessions are created and connected, the semaphore is
created with max_connections permits, and acquire_timeout is discarded
(the PoolOptions field is never read). -/
def poolNew (opts : PoolOptionsM) : PoolM :=
  { available := List.replicate opts.maxConnections clientConnected
    permits := opts.maxConnections }

/-- Outcome of a Pool::acquire run.  The failed variant exists because
acquire has an error channel (the anyhow question mark on
acquire_owned), but that error can only be a closed-semaphore error and
the pool never closes its semaphore. -/
inductive AOutcome where
  | blocked
  | acquired (c : ClientM)
  | failed (e : PgToPlError)
deriving DecidableEq

/-- The pop-retry loop of Pool::acquire (src/models/pool.rs lines 76 to
84): pop a session if one is available, otherwise yield and retry.  The
fuel bounds the number of yield iterations observed; with no concurrent
release the list stays empty and the loop never exits. -/
def popLoop : Nat → List ClientM → AOutcome
  | _, c :: _ => .acquired c
  | 0, [] => .blocked
  | fuel + 1, [] => popLoop fuel []

/-- Translation of Pool::acquire (src/models/pool.rs lines 72 to 91):
wait on the semaphore (blocking for ever when no permit is released),
then loop popping the available list.  No code path constructs an
error, and no code path consults any timeout. -/
def acquireRun (fuel : Nat) (p : PoolM) : AOutcome :=
  if p.permits = 0 then .blocked else popLoop fuel p.available

/-! ### Helper lemmas -/

/-- The pop-retry loop of acquire never exits while the available list
stays empty: with no concurrent release it spins for ever. -/
theorem popLoop_nil (fuel : Nat) : popLoop fuel [] = .blocked := by
  induction fuel with
  | zero => rfl
  | succ f ih => simpa [popLoop] using ih

/-- A row-shape failure out of the DataRow loop is always TooFewField or
TooManyField. -/
theorem pushRow_fail_cases (cols : List ColumnStorage) (row : List (Option (List Nat)))
    (idx total : Nat) (e : PgToPlError) (hp : pushRow cols row idx total = .fail e) :
    (∃ i n, e = .tooFewField i n) ∨ (∃ n, e = .tooManyField n) := by
  induction cols generalizing row idx with
  | nil =>
    cases row with
    | nil => simp [pushRow] at hp
    | cons f fs =>
      simp only [pushRow] at hp
      cases hp
      exact Or.inr ⟨total, rfl⟩
  | cons c cs ih =>
    cases row with
    | nil =>
      simp only [pushRow] at hp
      cases hp
      exact Or.inl ⟨idx, total, rfl⟩
    | cons f fs =>
      simp only [pushRow] at hp
      cases hpc : push_column_value c f with
      | none => rw [hpc] at hp; cases hp
      | some c2 =>
        rw [hpc] at hp
        cases hrec : pushRow cs fs (idx + 1) total with
        | panicked => rw [hrec] at hp; cases hp
        | fail e2 =>
          rw [hrec] at hp
          cases hp
          exact ih fs (idx + 1) hrec
        | ok rest => rw [hrec] at hp; cases hp

/-- An error return out of the inner dispatch loop of Client::query is
either a QueryError with the flag forced false, or a row-shape error
with the flag left at its entry value. -/
theorem processMsgs_retErr_cases (h0 : Bool) (msgs : List QMsg) (cols : List ColumnStorage)
    (e0 : Option String) (err : PgToPlError) (h : Bool) (left : List QMsg)
    (hp : processMsgs h0 msgs cols e0 = .retErr err h left) :
    ((∃ m, err = .queryError m) ∧ h = false) ∨
    (((∃ i n, err = .tooFewField i n) ∨ (∃ n, err = .tooManyField n)) ∧ h = h0) := by
  induction msgs generalizing cols e0 with
  | nil => simp [processMsgs] at hp
  | cons m rest ih =>
    cases m with
    | rowDescription fs => exact ih _ _ hp
    | dataRow row =>
      simp only [processMsgs] at hp
      cases hrow : pushRow cols row 0 cols.length with
      | panicked => rw [hrow] at hp; cases hp
      | fail e2 =>
        rw [hrow] at hp
        cases hp
        exact Or.inr ⟨pushRow_fail_cases _ _ _ _ _ hrow, rfl⟩
      | ok cols2 =>
        rw [hrow] at hp
        exact ih _ _ hp
    | noData => simp [processMsgs] at hp
    | readyForQuery =>
      simp only [processMsgs] at hp
      cases e0 with
      | none => simp at hp
      | some msg =>
        simp only at hp
        cases hp
        exact Or.inl ⟨⟨msg, rfl⟩, rfl⟩
    | errorResponse msg => exact ih _ _ hp
    | otherMsg => exact ih _ _ hp

/-! ### Claim theorems -/

/-- C3: the ClientRef drop handler, evaluated at an unhealthy session,
pushes back Client::new(options) — a session whose connect() handshake
was never driven and whose health flag is false — because
Client::replace only re-opens the TCP stream and never calls connect().
The claim (an unhealthy or never-connected session is never returned to
the available queue; the replacement has completed a fresh connect
handshake) is therefore violated by the code. -/
theorem C3_drop_pushes_unconnected_replacement :
    clientRefDropPush ⟨false, true⟩ = clientNew ∧
    (clientRefDropPush ⟨false, true⟩).handshakeDone = false ∧
    (clientRefDropPush ⟨false, true⟩).healthy = false ∧
    has_broken (clientRefDropPush ⟨false, true⟩).healthy = true := by decide

/-- C4 counterexample: a pool built from options with acquire timeout 1
and no permits never fails with PoolError timeout, no matter how long
the caller waits (1000 scheduler steps here): acquire stays blocked,
refuting the claim that expiry of acquire_timeout produces
PoolError("timeout"). -/
theorem C4_counterexample :
    acquireRun 1000 (poolNew ⟨0, 1⟩) = .blocked ∧
    AOutcome.blocked ≠ .failed (.poolError "timeout") := by
  constructor
  · show acquireRun 1000 (poolNew ⟨0, 1⟩) = .blocked
    rfl
  · decide

/-- C4 amended: Pool::acquire never produces any error (in particular
never PoolError("timeout")): every run is either still blocked or hands
out a session; and Pool::new discards acquire_timeout entirely, so the
pool built is independent of it. -/
theorem C4_acquire_ignores_timeout :
    (∀ (fuel : Nat) (p : PoolM),
        acquireRun fuel p = .blocked ∨ ∃ c, acquireRun fuel p = .acquired c) ∧
    (∀ (opts : PoolOptionsM) (t : Nat),
        poolNew { opts with acquireTimeout := t } = poolNew opts) := by
  constructor
  · intro fuel p
    unfold acquireRun
    by_cases hp : p.permits = 0
    · simp [hp]
    · simp only [hp, if_false]
      cases hav : p.available with
      | nil => exact Or.inl (popLoop_nil fuel)
      | cons c cs =>
        refine Or.inr ⟨c, ?_⟩
        cases fuel <;> rfl
  · intro opts t
    rfl

/-- C10: push_column_value panics (models as none) on a TEXT cell whose
payload is not valid UTF-8 and on a TEXT-ARRAY cell whose payload is
malformed (ndim = 2), and these panics reach the query() dispatch loop:
a DataRow carrying such a cell makes the whole run panic instead of
recording a null cell or returning an error. -/
theorem C10_push_column_value_panics :
    push_column_value (.Texts ⟨"t", []⟩) (some [255]) = none ∧
    push_column_value (.TextArray ⟨"arr", []⟩) (some [0, 0, 0, 2]) = none ∧
    queryRun true [.chunk [.rowDescription [⟨"t", 25⟩], .dataRow [some [255]]]] [] none
      = .panicked ∧
    queryRun true [.chunk [.rowDescription [⟨"a", 1009⟩], .dataRow [some [0, 0, 0, 2]]]] [] none
      = .panicked := by decide

/-- C1 counterexample: a query hitting a row with fewer fields than
builders returns TooFewField yet leaves the health flag at its previous
value: on a previously healthy session has_broken() stays false,
refuting the claim that a TooFewField return marks the session broken. -/
theorem C1_counterexample :
    queryRun true
        [.chunk [.rowDescription [⟨"a", 23⟩, ⟨"b", 23⟩], .dataRow [some [0, 0, 0, 1]]]]
        [] none
      = .result (.error (.tooFewField 1 2)) true none [] ∧
    has_broken true = false := by decide

/-- C2 counterexample: a NoData message makes query() return Ok with the
session marked healthy while the ReadyForQuery of the same exchange is
still un-drained in the read buffer: the run terminates at NoData, not
at ReadyForQuery, with a non-empty leftover, refuting the claim that
every healthy return has dispatched through ReadyForQuery. -/
theorem C2_counterexample :
    queryRun true [.chunk [.noData, .readyForQuery]] [] none
      = .result (.ok []) true (some .noData) [.readyForQuery] ∧
    (some Term.noData ≠ some Term.rfq) ∧
    ([QMsg.readyForQuery] ≠ ([] : List QMsg)) := by decide

/-- C5 counterexample: a handshake in which the server sends an
ErrorResponse and then closes the connection makes connect() return Ok
with the session marked healthy: the ErrorResponse is only printed, and
the zero-byte read breaks the loop into the unconditional mark_healthy,
refuting both halves of the claim. -/
theorem C5_counterexample :
    connectRun false [.chunk [.errorResponse "FATAL"], .eof] = .result (.ok ()) true ∧
    has_broken true = false := by decide

/-- C1 amended: for every query() dispatch run that returns, an Ok
return marks the session healthy (has_broken false) and QueryError and
ConnectionClosed returns mark it unhealthy (has_broken true), but an
I/O error, TooFewField or TooManyField return leaves the health flag at
its value on entry — it does not mark the session broken. -/
theorem C1_query_health_flag (h0 : Bool) (evs : List (REv QMsg))
    (cols0 : List ColumnStorage) (e0 : Option String)
    (r : Except PgToPlError (List ColumnStorage)) (h : Bool) (t : Option Term)
    (left : List QMsg)
    (hrun : queryRun h0 evs cols0 e0 = .result r h t left) :
    (∀ cs, r = .ok cs → has_broken h = false) ∧
    (∀ m, r = .error (.queryError m) → has_broken h = true) ∧
    (r = .error .connectionClosed → has_broken h = true) ∧
    (r = .error .ioError → h = h0) ∧
    (∀ i n, r = .error (.tooFewField i n) → h = h0) ∧
    (∀ n, r = .error (.tooManyField n) → h = h0) := by
  induction evs generalizing cols0 e0 with
  | nil => simp [queryRun] at hrun
  | cons ev evs ih =>
    cases ev with
    | ioErr =>
      simp only [queryRun] at hrun
      cases hrun
      exact ⟨by simp, by simp, by simp, fun _ => rfl, by simp, by simp⟩
    | eof =>
      simp only [queryRun] at hrun
      cases hrun
      exact ⟨by simp, by simp, fun _ => rfl, by simp, by simp, by simp⟩
    | chunk msgs =>
      simp only [queryRun] at hrun
      cases hm : processMsgs h0 msgs cols0 e0 with
      | cont cols2 e2 =>
        rw [hm] at hrun
        exact ih cols2 e2 hrun
      | retPanic l => rw [hm] at hrun; cases hrun
      | retErr err hh l =>
        rw [hm] at hrun
        cases hrun
        rcases processMsgs_retErr_cases h0 msgs cols0 e0 err h left hm with
          ⟨⟨m, hqe⟩, hf⟩ | ⟨hshape, hsame⟩
        · subst hqe; subst hf
          exact ⟨by simp, fun _ _ => rfl, by simp, by simp, by simp, by simp⟩
        · subst hsame
          rcases hshape with ⟨i, n, hfew⟩ | ⟨n, hmany⟩
          · subst hfew
            exact ⟨by simp, by simp, by simp, by simp, fun _ _ _ => rfl, by simp⟩
          · subst hmany
            exact ⟨by simp, by simp, by simp, by simp, by simp, fun _ _ => rfl⟩
      | retOk cols2 tt l =>
        rw [hm] at hrun
        cases hrun
        exact ⟨fun _ _ => rfl, by simp, by simp, by simp, by simp, by simp⟩

/-- C1 witness: the amended theorem applied to a concrete successful run
(a single ReadyForQuery with no buffered error). -/
theorem C1_query_health_flag_witness :
    queryRun false [.chunk [.readyForQuery]] [] none
      = .result (.ok []) true (some .rfq) [] ∧
    has_broken true = false :=
  ⟨by decide,
   (C1_query_health_flag false [.chunk [.readyForQuery]] [] none
      (.ok []) true (some .rfq) [] (by decide)).1 [] rfl⟩

/-- C2 amended: every query() dispatch run that returns Ok terminated
either at ReadyForQuery or at NoData (marking the session healthy), and
every error return that leaves the session healthy — necessarily an I/O
error, TooFewField or TooManyField on a previously healthy session —
returns without draining the remaining backend bytes; only QueryError
and ConnectionClosed force the flag to unhealthy. -/
theorem C2_query_drain (h0 : Bool) (evs : List (REv QMsg))
    (cols0 : List ColumnStorage) (e0 : Option String)
    (r : Except PgToPlError (List ColumnStorage)) (h : Bool) (t : Option Term)
    (left : List QMsg)
    (hrun : queryRun h0 evs cols0 e0 = .result r h t left) :
    (∀ cs, r = .ok cs → h = true ∧ (t = some .rfq ∨ t = some .noData)) ∧
    (h = true → ∀ e, r = .error e → h0 = true ∧
        (e = .ioError ∨ (∃ i n, e = .tooFewField i n) ∨ (∃ n, e = .tooManyField n))) := by
  induction evs generalizing cols0 e0 with
  | nil => simp [queryRun] at hrun
  | cons ev evs ih =>
    cases ev with
    | ioErr =>
      simp only [queryRun] at hrun
      cases hrun
      exact ⟨by simp, fun hh _ he => ⟨hh, by cases he; exact Or.inl rfl⟩⟩
    | eof =>
      simp only [queryRun] at hrun
      cases hrun
      exact ⟨by simp, by simp⟩
    | chunk msgs =>
      simp only [queryRun] at hrun
      cases hm : processMsgs h0 msgs cols0 e0 with
      | cont cols2 e2 =>
        rw [hm] at hrun
        exact ih cols2 e2 hrun
      | retPanic l => rw [hm] at hrun; cases hrun
      | retErr err hh l =>
        rw [hm] at hrun
        cases hrun
        refine ⟨by simp, fun hh2 e he => ?_⟩
        cases he
        rcases processMsgs_retErr_cases h0 msgs cols0 e0 err h left hm with
          ⟨⟨m, hqe⟩, hf⟩ | ⟨hshape, hsame⟩
        · rw [hf] at hh2; cases hh2
        · subst hsame
          exact ⟨hh2, Or.inr hshape⟩
      | retOk cols2 tt l =>
        rw [hm] at hrun
        cases hrun
        refine ⟨fun cs hcs => ⟨rfl, ?_⟩, by simp⟩
        cases tt with
        | rfq => exact Or.inl rfl
        | noData => exact Or.inr rfl

/-- C2 witness: the amended theorem applied to a concrete run that
returns Ok at NoData. -/
theorem C2_query_drain_witness :
    queryRun true [.chunk [.noData]] [] none
      = .result (.ok []) true (some .noData) [] ∧
    (true = true ∧ (some Term.noData = some Term.rfq ∨ some Term.noData = some Term.noData)) :=
  ⟨by decide,
   (C2_query_drain true [.chunk [.noData]] [] none
      (.ok []) true (some .noData) [] (by decide)).1 [] rfl⟩

/-- Removing the ErrorResponse messages from a chunk does not change
whether it contains a ReadyForQuery. -/
theorem hasRFQ_erase (msgs : List CMsg) :
    hasRFQ (msgs.filter (fun m =>
      match m with | .errorResponse _ => false | _ => true)) = hasRFQ msgs := by
  induction msgs with
  | nil => rfl
  | cons m rest ih =>
    cases m with
    | readyForQuery => simp [hasRFQ, List.filter_cons]
    | errorResponse s => simpa [hasRFQ, List.filter_cons] using ih
    | authCleartext => simpa [hasRFQ, List.filter_cons] using ih
    | authMd5 salt => simpa [hasRFQ, List.filter_cons] using ih
    | otherMsg => simpa [hasRFQ, List.filter_cons] using ih

/-- C5 amended: connect() returns Ok and marks the session healthy
whenever its read loop terminates — at a ReadyForQuery or at a zero-byte
read; only an I/O error surfaces as Err, leaving the flag at its entry
value (false for a fresh session); and ErrorResponse messages during the
handshake are completely transparent: the run is unchanged if they are
all erased from the stream. -/
theorem C5_connect_health :
    (∀ (h0 : Bool) (evs : List (REv CMsg)) (r : Except PgToPlError Unit) (h : Bool),
        connectRun h0 evs = .result r h →
          (r = .ok () → h = true) ∧ (∀ e, r = .error e → e = .ioError ∧ h = h0)) ∧
    (∀ (h0 : Bool) (evs : List (REv CMsg)),
        connectRun h0 (eraseErrors evs) = connectRun h0 evs) := by
  constructor
  · intro h0 evs r h hrun
    induction evs with
    | nil => simp [connectRun] at hrun
    | cons ev evs ih =>
      cases ev with
      | ioErr =>
        simp only [connectRun] at hrun
        cases hrun
        exact ⟨by simp, fun e he => by cases he; exact ⟨rfl, rfl⟩⟩
      | eof =>
        simp only [connectRun] at hrun
        cases hrun
        exact ⟨fun _ => rfl, by simp⟩
      | chunk msgs =>
        simp only [connectRun] at hrun
        by_cases hq : hasRFQ msgs
        · rw [if_pos hq] at hrun
          cases hrun
          exact ⟨fun _ => rfl, by simp⟩
        · rw [if_neg hq] at hrun
          exact ih hrun
  · intro h0 evs
    induction evs with
    | nil => rfl
    | cons ev evs ih =>
      cases ev with
      | ioErr => simp [eraseErrors, connectRun] at ih ⊢
      | eof => simp [eraseErrors, connectRun] at ih ⊢
      | chunk msgs =>
        simp only [eraseErrors, List.map_cons] at ih ⊢
        simp only [connectRun, hasRFQ_erase]
        by_cases hq : hasRFQ msgs
        · simp [hq]
        · simpa [hq] using ih

/-- C5 witness: the amended theorem applied to a concrete handshake that
reaches ReadyForQuery. -/
theorem C5_connect_health_witness :
    connectRun false [.chunk [.readyForQuery]] = .result (.ok ()) true ∧ true = true :=
  ⟨by decide,
   (C5_connect_health.1 false [.chunk [.readyForQuery]] (.ok ()) true (by decide)).1 rfl⟩

/-- Hex encoding yields exactly two characters per byte. -/
theorem bytesToHexChars_length (l : List Nat) :
    (bytesToHexChars l).length = 2 * l.length := by
  induction l with
  | nil => rfl
  | cons b rest ih => simp only [bytesToHexChars, List.length_cons, ih]; omega

set_option maxRecDepth 4000 in
/-- An MD5 digest always has 16 bytes. -/
theorem md5Bytes_length (msg : List Nat) : (md5Bytes msg).length = 16 := by
  show (le4Bytes _ ++ le4Bytes _ ++ le4Bytes _ ++ le4Bytes _).length = 16
  simp only [List.length_append, le4Bytes, List.length_cons, List.length_nil]

/-- The length of an appended string is the sum of the lengths. -/
theorem stringLengthAppend (s t : String) : (s ++ t).length = s.length + t.length :=
  String.length_append s t

/-- C6 amended: statement_name(q) is the string stmt_ followed by the
lowercase hex MD5 digest of the UTF-8 bytes of q, and its length is the
fixed value 37 (5 prefix characters plus 32 hex digits), not 35 as the
claim stated. -/
theorem C6_statement_name_format (q : String) :
    statement_name q = "stmt_" ++ bytesToHex (md5Bytes (strBytes q)) ∧
    (statement_name q).length = 37 := by
  refine ⟨rfl, ?_⟩
  show ("stmt_" ++ bytesToHex (md5Bytes (strBytes q))).length = 37
  rw [stringLengthAppend]
  have h1 : (bytesToHex (md5Bytes (strBytes q))).length = 32 := by
    show (bytesToHexChars (md5Bytes (strBytes q))).length = 32
    rw [bytesToHexChars_length, md5Bytes_length]
  rw [h1]
  decide

/-- C6 counterexample: at the concrete query text SELECT 1 the produced
statement name has 37 characters, not the 35 the claim asserts. -/
theorem C6_counterexample :
    (statement_name "SELECT 1").length = 37 ∧ (statement_name "SELECT 1").length ≠ 35 := by
  decide

/-- The UTF-8 bytes of an appended string are the appended UTF-8 bytes. -/
theorem strBytes_append (s t : String) : strBytes (s ++ t) = strBytes s ++ strBytes t := by
  cases s
  cases t
  simp [strBytes]

/-- C8 confirmed: md5_hash(u, p, s) for a 4-byte salt is exactly
md5 followed by hex(md5(hex(md5(p concat u)) concat s)), the
PasswordMessage body required by MD5 authentication. -/
theorem C8_md5_hash_spec (u p : String) (salt : List Nat) (hs : salt.length = 4) :
    md5_hash u p salt =
      "md5" ++ bytesToHex (md5Bytes
        (strBytes (bytesToHex (md5Bytes (strBytes p ++ strBytes u))) ++ salt)) := by
  have h1 : strBytes (p ++ u) = strBytes p ++ strBytes u := strBytes_append p u
  show "md5" ++ bytesToHex (md5ContextFinalize (md5ContextConsume
      (md5ContextConsume [] (strBytes (bytesToHex (md5Bytes (strBytes (p ++ u)))))) salt)) = _
  simp [md5ContextConsume, md5ContextFinalize, h1]

/-- C8 witness: the theorem applied to concrete user, password and a
concrete 4-byte salt. -/
theorem C8_md5_hash_spec_witness :
    ([1, 2, 3, 4] : List Nat).length = 4 ∧
    md5_hash "u" "p" [1, 2, 3, 4] =
      "md5" ++ bytesToHex (md5Bytes
        (strBytes (bytesToHex (md5Bytes (strBytes "p" ++ strBytes "u"))) ++ [1, 2, 3, 4])) :=
  ⟨rfl, C8_md5_hash_spec "u" "p" [1, 2, 3, 4] rfl⟩

/-- i32::from_be_bytes always lands in the i32 range. -/
theorem i32FromBe_bounds (l : List Nat) :
    -(2 ^ 31) ≤ i32FromBe l ∧ i32FromBe l < 2 ^ 31 := by
  unfold i32FromBe
  have h : beNat l % 2 ^ 32 < 2 ^ 32 := Nat.mod_lt _ (by norm_num)
  split <;> constructor <;> omega

/-- i64::from_be_bytes always lands in the i64 range. -/
theorem i64FromBe_bounds (l : List Nat) :
    -(2 ^ 63) ≤ i64FromBe l ∧ i64FromBe l < 2 ^ 63 := by
  unfold i64FromBe
  have h : beNat l % 2 ^ 64 < 2 ^ 64 := Nat.mod_lt _ (by norm_num)
  split <;> constructor <;> omega

/-- Wrapping i32 arithmetic is plain arithmetic inside the i32 range. -/
theorem wrap32_eq_of_range (v : Int) (h1 : -(2 ^ 31) ≤ v) (h2 : v < 2 ^ 31) :
    wrap32 v = v := by
  unfold wrap32
  rw [Int.emod_eq_of_lt (by omega) (by omega)]
  omega

/-- Wrapping i64 arithmetic is plain arithmetic inside the i64 range. -/
theorem wrap64_eq_of_range (v : Int) (h1 : -(2 ^ 63) ≤ v) (h2 : v < 2 ^ 63) :
    wrap64 v = v := by
  unfold wrap64
  rw [Int.emod_eq_of_lt (by omega) (by omega)]
  omega

/-- C7 confirmed: for every fixed-width column builder (INT4, BOOL,
DATE, FLOAT8, TIME, TIMESTAMP, TIMESTAMPTZ), push_column_value appends a
null cell when the payload is absent (SQL NULL) or its byte width
differs from the expected fixed width, and otherwise appends the
big-endian-decoded value, adding 10957 days for DATE and 946684800000000
microseconds for TIMESTAMP (TimestampsWtz, oid 1114) and TIMESTAMPTZ
(Timestamps, oid 1184).  The shifts use wrapping machine arithmetic; the
final conjunct of each date or timestamp group states the plain addition
whenever no i32 or i64 overflow occurs. -/
theorem C7_fixed_width_push :
    (∀ c : ColumnResult Int, push_column_value (.Ints c) none = some (.Ints c.pushNull)) ∧
    (∀ (c : ColumnResult Int) (b : List Nat), b.length ≠ 4 →
        push_column_value (.Ints c) (some b) = some (.Ints c.pushNull)) ∧
    (∀ (c : ColumnResult Int) (b : List Nat), b.length = 4 →
        push_column_value (.Ints c) (some b) = some (.Ints (c.push (i32FromBe b)))) ∧
    (∀ c : ColumnResult Bool, push_column_value (.Bools c) none = some (.Bools c.pushNull)) ∧
    (∀ (c : ColumnResult Bool) (b : List Nat), b.length ≠ 1 →
        push_column_value (.Bools c) (some b) = some (.Bools c.pushNull)) ∧
    (∀ (c : ColumnResult Bool) (b : Nat),
        push_column_value (.Bools c) (some [b])
          = some (.Bools (c.push (decide (b % 256 ≠ 0))))) ∧
    (∀ c : ColumnResult Int, push_column_value (.Dates c) none = some (.Dates c.pushNull)) ∧
    (∀ (c : ColumnResult Int) (b : List Nat), b.length ≠ 4 →
        push_column_value (.Dates c) (some b) = some (.Dates c.pushNull)) ∧
    (∀ (c : ColumnResult Int) (b : List Nat), b.length = 4 →
        push_column_value (.Dates c) (some b)
          = some (.Dates (c.push (wrap32 (i32FromBe b + 10957))))) ∧
    (∀ (c : ColumnResult Int) (b : List Nat), b.length = 4 →
        i32FromBe b + 10957 < 2 ^ 31 →
        push_column_value (.Dates c) (some b)
          = some (.Dates (c.push (i32FromBe b + 10957)))) ∧
    (∀ c : ColumnResult Nat, push_column_value (.Doubles c) none = some (.Doubles c.pushNull)) ∧
    (∀ (c : ColumnResult Nat) (b : List Nat), b.length ≠ 8 →
        push_column_value (.Doubles c) (some b) = some (.Doubles c.pushNull)) ∧
    (∀ (c : ColumnResult Nat) (b : List Nat), b.length = 8 →
        push_column_value (.Doubles c) (some b)
          = some (.Doubles (c.push (beNat b % 2 ^ 64)))) ∧
    (∀ c : ColumnResult Int, push_column_value (.Times c) none = some (.Times c.pushNull)) ∧
    (∀ (c : ColumnResult Int) (b : List Nat), b.length ≠ 8 →
        push_column_value (.Times c) (some b) = some (.Times c.pushNull)) ∧
    (∀ (c : ColumnResult Int) (b : List Nat), b.length = 8 →
        push_column_value (.Times c) (some b) = some (.Times (c.push (i64FromBe b)))) ∧
    (∀ c : ColumnResult Int,
        push_column_value (.TimestampsWtz c) none = some (.TimestampsWtz c.pushNull)) ∧
    (∀ (c : ColumnResult Int) (b : List Nat), b.length ≠ 8 →
        push_column_value (.TimestampsWtz c) (some b) = some (.TimestampsWtz c.pushNull)) ∧
    (∀ (c : ColumnResult Int) (b : List Nat), b.length = 8 →
        push_column_value (.TimestampsWtz c) (some b)
          = some (.TimestampsWtz (c.push (wrap64 (i64FromBe b + 946684800000000))))) ∧
    (∀ (c : ColumnResult Int) (b : List Nat), b.length = 8 →
        i64FromBe b + 946684800000000 < 2 ^ 63 →
        push_column_value (.TimestampsWtz c) (some b)
          = some (.TimestampsWtz (c.push (i64FromBe b + 946684800000000)))) ∧
    (∀ c : ColumnResult Int,
        push_column_value (.Timestamps c) none = some (.Timestamps c.pushNull)) ∧
    (∀ (c : ColumnResult Int) (b : List Nat), b.length ≠ 8 →
        push_column_value (.Timestamps c) (some b) = some (.Timestamps c.pushNull)) ∧
    (∀ (c : ColumnResult Int) (b : List Nat), b.length = 8 →
        push_column_value (.Timestamps c) (some b)
          = some (.Timestamps (c.push (wrap64 (i64FromBe b + 946684800000000))))) ∧
    (∀ (c : ColumnResult Int) (b : List Nat), b.length = 8 →
        i64FromBe b + 946684800000000 < 2 ^ 63 →
        push_column_value (.Timestamps c) (some b)
          = some (.Timestamps (c.push (i64FromBe b + 946684800000000)))) := by
  refine ⟨fun c => rfl,
    fun c b hb => by simp [push_column_value, hb],
    fun c b hb => by simp [push_column_value, hb],
    fun c => rfl,
    ?_,
    fun c b => rfl,
    fun c => rfl,
    fun c b hb => by simp [push_column_value, hb],
    fun c b hb => by simp [push_column_value, hb],
    ?_,
    fun c => rfl,
    fun c b hb => by simp [push_column_value, hb],
    fun c b hb => by simp [push_column_value, hb],
    fun c => rfl,
    fun c b hb => by simp [push_column_value, hb],
    fun c b hb => by simp [push_column_value, hb],
    fun c => rfl,
    fun c b hb => by simp [push_column_value, hb],
    fun c b hb => by simp [push_column_value, hb],
    ?_,
    fun c => rfl,
    fun c b hb => by simp [push_column_value, hb],
    fun c b hb => by simp [push_column_value, hb],
    ?_⟩
  · intro c b hb
    match b with
    | [] => rfl
    | [x] => exact absurd rfl hb
    | x :: y :: ys => rfl
  · intro c b hb hr
    have hlb := (i32FromBe_bounds b).1
    have hw : wrap32 (i32FromBe b + 10957) = i32FromBe b + 10957 :=
      wrap32_eq_of_range _ (by omega) hr
    simp [push_column_value, hb, hw]
  · intro c b hb hr
    have hlb := (i64FromBe_bounds b).1
    have hw : wrap64 (i64FromBe b + 946684800000000) = i64FromBe b + 946684800000000 :=
      wrap64_eq_of_range _ (by omega) hr
    simp [push_column_value, hb, hw]
  · intro c b hb hr
    have hlb := (i64FromBe_bounds b).1
    have hw : wrap64 (i64FromBe b + 946684800000000) = i64FromBe b + 946684800000000 :=
      wrap64_eq_of_range _ (by omega) hr
    simp [push_column_value, hb, hw]

/-- C7 witness: the INT4 decode conjunct applied at a concrete 4-byte
payload. -/
theorem C7_fixed_width_push_witness :
    ([0, 0, 0, 7] : List Nat).length = 4 ∧
    push_column_value (.Ints ⟨"n", []⟩) (some [0, 0, 0, 7])
      = some (.Ints (ColumnResult.push ⟨"n", []⟩ (i32FromBe [0, 0, 0, 7]))) :=
  ⟨rfl, C7_fixed_width_push.2.2.1 ⟨"n", []⟩ [0, 0, 0, 7] rfl⟩

/-- C9 confirmed: parse_text_array returns the empty list when ndim is
0, fails with OnlyOneDimensionArraySupported for every ndim outside
{0, 1}, decodes an element whose item_len reads as -1 as a null
element, and fails with NotEnoughBytes when fewer than item_len bytes
remain for an element payload. -/
theorem C9_parse_text_array_spec :
    (∀ rest : List Nat, parse_text_array ([0, 0, 0, 0] ++ rest) = .ok []) ∧
    (∀ (bytes rest : List Nat) (nd : Int), readI32 bytes = .ok (nd, rest) →
        nd ≠ 0 → nd ≠ 1 →
        parse_text_array bytes = .error .onlyOneDimensionArraySupported) ∧
    (∀ (n : Nat) (rest : List Nat) (vs : List (Option (List Nat))),
        parseItems n rest = .ok vs →
        parseItems (n + 1) ([255, 255, 255, 255] ++ rest) = .ok (none :: vs)) ∧
    (∀ (n : Nat) (bytes rest : List Nat) (len : Int),
        readI32 bytes = .ok (len, rest) → 0 ≤ len → rest.length < usizeOfI32 len →
        parseItems (n + 1) bytes = .error .notEnoughBytes) := by
  refine ⟨?_, ?_, ?_, ?_⟩
  · intro rest
    have h : i32FromBe [0, 0, 0, 0] = 0 := by decide
    simp [parse_text_array, readI32, h]
  · intro bytes rest nd hread h0 h1
    simp only [parse_text_array]
    rw [hread]
    simp [h0, h1]
  · intro n rest vs hp
    have h : i32FromBe [255, 255, 255, 255] = -1 := by decide
    simp [parseItems, readI32, h, hp]
  · intro n bytes rest len hread hge hlen
    simp only [parseItems]
    rw [hread]
    have hne : ¬(len = -1) := by omega
    simp [hne, hlen]

/-- C9 witness: the four conjuncts applied at concrete payloads: an
empty array, a two-dimensional array header, a single null element, and
an element announcing 5 bytes with only 2 remaining. -/
theorem C9_parse_text_array_spec_witness :
    parse_text_array [0, 0, 0, 0] = .ok [] ∧
    parse_text_array [0, 0, 0, 2] = .error .onlyOneDimensionArraySupported ∧
    parseItems 1 [255, 255, 255, 255] = .ok [none] ∧
    parseItems 1 [0, 0, 0, 5, 97, 98] = .error .notEnoughBytes :=
  ⟨C9_parse_text_array_spec.1 [],
   C9_parse_text_array_spec.2.1 [0, 0, 0, 2] [] 2 (by decide) (by decide) (by decide),
   C9_parse_text_array_spec.2.2.1 0 [] [] rfl,
   C9_parse_text_array_spec.2.2.2 0 [0, 0, 0, 5, 97, 98] [97, 98] 5
     (by decide) (by decide) (by decide)⟩
